import Mathlib

/-!
Verification of the decision-and-simulation core of the `art-ai` attacker
simulation backend. The Python modules `env.py`, `attack_engine.py`,
`ai_agent.py`, `storage.py` and `ai/knowledge.py` are shallowly embedded:
mutable objects become explicit state passing, `random.random()` draws become
explicit rational inputs, floats become exact rationals, Python dicts and sets
become association lists and lists with membership semantics.
-/

namespace ArtAI

/-- Access levels from `env.AccessLevel`, a `str`-mixin enum with members
NONE="none", PUBLIC="public", INTERNAL="internal", ADMIN="admin". -/
inductive AccessLevel
  | NONE
  | PUBLIC
  | INTERNAL
  | ADMIN
deriving DecidableEq, Repr

/-- The string value of each enum member (the `str` content of the member,
since `AccessLevel` mixes in `str`). -/
def AccessLevel.value : AccessLevel → String
  | .NONE => "none"
  | .PUBLIC => "public"
  | .INTERNAL => "internal"
  | .ADMIN => "admin"

/-- The `order` dict used by `AccessLevel.__lt__` in `env.py`
(NONE=0, PUBLIC=1, INTERNAL=2, ADMIN=3). -/
def AccessLevel.rank : AccessLevel → Nat
  | .NONE => 0
  | .PUBLIC => 1
  | .INTERNAL => 2
  | .ADMIN => 3

/-- `AccessLevel.__lt__`: compares the ranks from the `order` dict. -/
def AccessLevel.pyLt (a b : AccessLevel) : Bool := a.rank < b.rank

/-- `AccessLevel.__le__`: `self == other or self < other`. -/
def AccessLevel.pyLe (a b : AccessLevel) : Bool := a == b || a.pyLt b

/-- Python string `<` (lexicographic comparison of code points), on the
underlying character lists. `AccessLevel` defines `__lt__`/`__le__` but not
`__ge__`, so a Python `>=` between two members falls through to `str.__ge__`,
which compares the members' string values with this order. -/
def pyCharListLt : List Char → List Char → Bool
  | _, [] => false
  | [], _ :: _ => true
  | a :: as, b :: bs =>
      if a.val < b.val then true
      else if b.val < a.val then false
      else pyCharListLt as bs

/-- Python string `>=`: the negation of string `<` (strings are totally
ordered in Python). -/
def pyStrGe (a b : String) : Bool := !(pyCharListLt a.data b.data)

/-- Attack actions from `attack_engine.AttackAction`. -/
inductive AttackAction
  | PUBLIC_ACCESS_ATTEMPT
  | TOKEN_REUSE_ATTEMPT
  | PRIVILEGE_ESCALATION_ATTEMPT
  | LATERAL_MOVEMENT_ATTEMPT
  | SQL_INJECTION_ATTEMPT
  | XSS_ATTEMPT
  | PATH_TRAVERSAL_ATTEMPT
  | COMMAND_INJECTION_ATTEMPT
  | AUTHENTICATION_BYPASS_ATTEMPT
  | SESSION_HIJACK_ATTEMPT
deriving DecidableEq, Repr

/-- String value of each `AttackAction` member. -/
def AttackAction.value : AttackAction → String
  | .PUBLIC_ACCESS_ATTEMPT => "public_access_attempt"
  | .TOKEN_REUSE_ATTEMPT => "token_reuse_attempt"
  | .PRIVILEGE_ESCALATION_ATTEMPT => "privilege_escalation_attempt"
  | .LATERAL_MOVEMENT_ATTEMPT => "lateral_movement_attempt"
  | .SQL_INJECTION_ATTEMPT => "sql_injection_attempt"
  | .XSS_ATTEMPT => "xss_attempt"
  | .PATH_TRAVERSAL_ATTEMPT => "path_traversal_attempt"
  | .COMMAND_INJECTION_ATTEMPT => "command_injection_attempt"
  | .AUTHENTICATION_BYPASS_ATTEMPT => "authentication_bypass_attempt"
  | .SESSION_HIJACK_ATTEMPT => "session_hijack_attempt"

/-- `env.EnvironmentState`: the mutable world model for one episode. Python
sets (`visited_components`, `blocked_ips`) are lists with membership
semantics; floats are rationals. -/
structure EnvironmentState where
  current_access_level : AccessLevel
  visited_components : List String
  blocked_ips : List String
  discovered_services : List String
  discovered_vulnerabilities : List String
  iteration_count : Nat
  strategic_hint : Option String
  hint_available : Nat
  hint_service : Option String
  hint_confidence : ℚ
  hint_followed : Bool
  hint_success : Bool
deriving DecidableEq, Repr

/-- The dataclass defaults of `EnvironmentState` (fresh episode state). -/
def initialState : EnvironmentState :=
  { current_access_level := .NONE
    visited_components := []
    blocked_ips := []
    discovered_services := []
    discovered_vulnerabilities := []
    iteration_count := 0
    strategic_hint := none
    hint_available := 0
    hint_service := none
    hint_confidence := 0
    hint_followed := false
    hint_success := false }

/-- `EnvironmentState.check_hint_match`: `False` when the hint is absent (or
the empty string, which is falsy in Python), else string equality. -/
def EnvironmentState.check_hint_match (s : EnvironmentState) (action : String) : Bool :=
  match s.strategic_hint with
  | none => false
  | some h => if h = "" then false else action == h

/-- `EnvironmentState.mark_hint_followed`. -/
def EnvironmentState.mark_hint_followed (s : EnvironmentState) (success : Bool) :
    EnvironmentState :=
  { s with hint_followed := true, hint_success := success }

/-- `EnvironmentState.escalate_access`: overwrites the level iff the target is
strictly higher in the `__lt__` order; returns whether it escalated. -/
def EnvironmentState.escalate_access (s : EnvironmentState) (new_level : AccessLevel) :
    Bool × EnvironmentState :=
  if s.current_access_level.pyLt new_level then
    (true, { s with current_access_level := new_level })
  else
    (false, s)

/-- `EnvironmentState.add_visited_component` (set insertion). -/
def EnvironmentState.add_visited_component (s : EnvironmentState) (component : String) :
    EnvironmentState :=
  if component ∈ s.visited_components then s
  else { s with visited_components := s.visited_components ++ [component] }

/-- `EnvironmentState.is_blocked`: membership in the blocked set. -/
def EnvironmentState.is_blocked (s : EnvironmentState) (ip : String) : Bool :=
  ip ∈ s.blocked_ips

/-- `EnvironmentState.block_ip` (set insertion). -/
def EnvironmentState.block_ip (s : EnvironmentState) (ip : String) : EnvironmentState :=
  if ip ∈ s.blocked_ips then s
  else { s with blocked_ips := s.blocked_ips ++ [ip] }

/-- `attack_engine.AttackResult`. -/
structure AttackResult where
  success : Bool
  new_access_level : AccessLevel
  message : String
  discovered_component : Option String
  vulnerability_found : Option String
  blocked : Bool
deriving DecidableEq, Repr

/-- `AttackEngine.SUCCESS_PROBABILITIES`: per-level success probability
table; `none` when the action is not listed for the level. -/
def SUCCESS_PROBABILITIES (level : AccessLevel) (a : AttackAction) : Option ℚ :=
  match level, a with
  | .NONE, .PUBLIC_ACCESS_ATTEMPT => some (3/10)
  | .NONE, .AUTHENTICATION_BYPASS_ATTEMPT => some (1/10)
  | .NONE, .SQL_INJECTION_ATTEMPT => some (15/100)
  | .PUBLIC, .TOKEN_REUSE_ATTEMPT => some (25/100)
  | .PUBLIC, .SESSION_HIJACK_ATTEMPT => some (2/10)
  | .PUBLIC, .XSS_ATTEMPT => some (3/10)
  | .PUBLIC, .PATH_TRAVERSAL_ATTEMPT => some (2/10)
  | .INTERNAL, .PRIVILEGE_ESCALATION_ATTEMPT => some (2/10)
  | .INTERNAL, .LATERAL_MOVEMENT_ATTEMPT => some (3/10)
  | .INTERNAL, .COMMAND_INJECTION_ATTEMPT => some (15/100)
  | .ADMIN, .LATERAL_MOVEMENT_ATTEMPT => some (8/10)
  | _, _ => none

/-- `AttackEngine.ACCESS_ESCALATIONS`: escalation target per action. -/
def ACCESS_ESCALATIONS : AttackAction → Option AccessLevel
  | .PUBLIC_ACCESS_ATTEMPT => some .PUBLIC
  | .AUTHENTICATION_BYPASS_ATTEMPT => some .PUBLIC
  | .TOKEN_REUSE_ATTEMPT => some .INTERNAL
  | .SESSION_HIJACK_ATTEMPT => some .INTERNAL
  | .PRIVILEGE_ESCALATION_ATTEMPT => some .ADMIN
  | .LATERAL_MOVEMENT_ATTEMPT => some .INTERNAL
  | _ => none

/-- `AttackEngine.VULNERABILITIES`: vulnerability class discovered on a
successful execution of the action, if any. -/
def VULNERABILITIES : AttackAction → Option String
  | .SQL_INJECTION_ATTEMPT => some "SQL Injection"
  | .XSS_ATTEMPT => some "Cross-Site Scripting (XSS)"
  | .PATH_TRAVERSAL_ATTEMPT => some "Path Traversal"
  | .COMMAND_INJECTION_ATTEMPT => some "Command Injection"
  | _ => none

/-- `AttackEngine.__init__`: `self.block_probability = 0.05`. -/
def block_probability : ℚ := 5/100

/-- `AttackEngine._is_action_applicable`: the action is listed for the current
level, or is a recognized escalation action. -/
def is_action_applicable (action : AttackAction) (current_level : AccessLevel) : Bool :=
  (SUCCESS_PROBABILITIES current_level action).isSome || (ACCESS_ESCALATIONS action).isSome

/-- `AttackEngine._get_success_probability`: table value (default 0.1) scaled
by 1.1 and capped at 0.95. -/
def get_success_probability (action : AttackAction) (current_level : AccessLevel) : ℚ :=
  let base_prob := (SUCCESS_PROBABILITIES current_level action).getD (1/10)
  min (base_prob * (11/10)) (95/100)

/-- `AttackEngine._calculate_new_access_level`: the escalation target when it
is strictly higher than the current level, else the current level. -/
def calculate_new_access_level (action : AttackAction) (current_level : AccessLevel) :
    AccessLevel :=
  match ACCESS_ESCALATIONS action with
  | some escalation => if current_level.pyLt escalation then escalation else current_level
  | none => current_level

/-- The random draws consumed by one `execute_attack` call: the
`random.random()` sample compared with `block_probability`, the
`random.random()` sample compared with the success probability, and the
`random.randint(1, 10)` component id (modelled as `component_id % 10 + 1`). -/
structure Draws where
  block_draw : ℚ
  success_draw : ℚ
  component_id : Nat
deriving DecidableEq, Repr

/-- `AttackEngine.execute_attack`, as a pure function of the action, the
environment state and the random draws; returns the `AttackResult` together
with the (possibly mutated) state. -/
def execute_attack (action : AttackAction) (state : EnvironmentState) (d : Draws) :
    AttackResult × EnvironmentState :=
  if state.is_blocked "attacker_ip" then
    ({ success := false
       new_access_level := state.current_access_level
       message := "IP address is blocked"
       discovered_component := none
       vulnerability_found := none
       blocked := true }, state)
  else if !(is_action_applicable action state.current_access_level) then
    ({ success := false
       new_access_level := state.current_access_level
       message := "Action " ++ action.value ++ " not applicable at " ++
         state.current_access_level.value ++ " level"
       discovered_component := none
       vulnerability_found := none
       blocked := false }, state)
  else if d.block_draw < block_probability then
    let state := state.block_ip "attacker_ip"
    ({ success := false
       new_access_level := state.current_access_level
       message := "Attack detected and blocked by IDS"
       discovered_component := none
       vulnerability_found := none
       blocked := true }, state)
  else
    let success_prob := get_success_probability action state.current_access_level
    if d.success_draw < success_prob then
      let new_level := calculate_new_access_level action state.current_access_level
      let state := (state.escalate_access new_level).2
      let component := "service_" ++ toString (d.component_id % 10 + 1)
      let state := state.add_visited_component component
      let vulnerability := VULNERABILITIES action
      let state :=
        match vulnerability with
        | some v =>
            { state with discovered_vulnerabilities := state.discovered_vulnerabilities ++ [v] }
        | none => state
      ({ success := true
         new_access_level := state.current_access_level
         message := "Successfully executed " ++ action.value
         discovered_component := some component
         vulnerability_found := vulnerability
         blocked := false }, state)
    else
      ({ success := false
         new_access_level := state.current_access_level
         message := "Failed to execute " ++ action.value
         discovered_component := none
         vulnerability_found := none
         blocked := false }, state)

/-- `AttackEngine.get_available_actions`, kept faithful to the source: the
level guards are written `current_level >= AccessLevel.PUBLIC` and
`current_level >= AccessLevel.INTERNAL` in Python, and since the enum defines
no `__ge__`, these resolve to `str.__ge__` on the members' string values
(`pyStrGe`). The final `list(set(available + base_actions))` is modelled as
concatenation followed by duplicate removal (membership-preserving). -/
def get_available_actions (current_level : AccessLevel) : List AttackAction :=
  let base_actions := [AttackAction.PUBLIC_ACCESS_ATTEMPT, AttackAction.SQL_INJECTION_ATTEMPT]
  let available : List AttackAction :=
    (if pyStrGe current_level.value AccessLevel.PUBLIC.value then
      [.TOKEN_REUSE_ATTEMPT, .XSS_ATTEMPT, .PATH_TRAVERSAL_ATTEMPT]
     else []) ++
    (if pyStrGe current_level.value AccessLevel.INTERNAL.value then
      [.PRIVILEGE_ESCALATION_ATTEMPT, .LATERAL_MOVEMENT_ATTEMPT, .COMMAND_INJECTION_ATTEMPT]
     else [])
  (available ++ base_actions).eraseDups

/-- The `access_levels` rank dict inside `QLearningAgent.calculate_reward`
(`dict.get(level, 0)`; every member is present, so the default is dead). -/
def access_levels (l : AccessLevel) : ℤ :=
  match l with
  | .NONE => 0
  | .PUBLIC => 1
  | .INTERNAL => 2
  | .ADMIN => 3

/-- `QLearningAgent.calculate_reward`, returning the reward together with the
state (mutated through `mark_hint_followed`). The term order follows the
source: success base and escalation/discovery/hint bonuses or the failure
penalties, then the hint trust bonus, then the blocking penalty. -/
def calculate_reward (result : AttackResult) (state : EnvironmentState) (action : String) :
    ℚ × EnvironmentState :=
  let reward : ℚ := 0
  let hint_match := state.check_hint_match action
  let (reward, state) :=
    if result.success then
      let reward := reward + 5
      let current_level := access_levels state.current_access_level
      let new_level := access_levels result.new_access_level
      let reward :=
        if current_level < new_level then reward + 10 * ((new_level - current_level : ℤ) : ℚ)
        else reward
      let reward := if result.discovered_component.isSome then reward + 2 else reward
      let reward := if result.vulnerability_found.isSome then reward + 3 else reward
      if hint_match then (reward + 100, state.mark_hint_followed true)
      else (reward, state)
    else
      let reward := reward - 2
      if state.hint_available = 1 && !hint_match then (reward - 1, state)
      else (reward, state)
  let (reward, state) :=
    if hint_match && state.hint_available = 1 then
      let reward := reward + 2
      if !result.success then (reward, state.mark_hint_followed false)
      else (reward, state)
    else (reward, state)
  let reward := if result.blocked then reward - 10 else reward
  (reward, state)

/-- One simulation step of `main.run_simulation`'s loop, composed per the
source control flow: `execute_attack` mutates the environment, then
`calculate_reward` is applied to the result, that same (already mutated)
environment, and the action's string value. -/
def simulationStep (action : AttackAction) (env : EnvironmentState) (d : Draws) :
    AttackResult × ℚ × EnvironmentState :=
  let (result, env) := execute_attack action env d
  let (reward, env) := calculate_reward result env action.value
  (result, reward, env)

/-- Running a list of `execute_attack` calls in sequence (one episode's worth
of attack executions), collecting the results and the final state. -/
def runAttacks : List (AttackAction × Draws) → EnvironmentState →
    List AttackResult × EnvironmentState
  | [], env => ([], env)
  | (a, d) :: rest, env =>
      let (res, env1) := execute_attack a env d
      let (results, envF) := runAttacks rest env1
      (res :: results, envF)

/-- The access levels observed along a run of `execute_attack` calls, starting
with the initial level. -/
def levelTrace : List (AttackAction × Draws) → EnvironmentState → List AccessLevel
  | [], env => [env.current_access_level]
  | (a, d) :: rest, env =>
      env.current_access_level :: levelTrace rest (execute_attack a env d).2

/-- Association-list lookup for the Python dict model. -/
def alistLookup {α : Type} (k : String) : List (String × α) → Option α
  | [] => none
  | (k0, v) :: rest => if k0 = k then some v else alistLookup k rest

/-- Association-list update for the Python dict model: overwrite in place when
the key is present, append otherwise. -/
def alistInsert {α : Type} (k : String) (v : α) : List (String × α) → List (String × α)
  | [] => [(k, v)]
  | (k0, v0) :: rest =>
      if k0 = k then (k, v) :: rest else (k0, v0) :: alistInsert k v rest

/-- `ai_agent.QTable`: the nested dict becomes a nested association list. -/
structure QTable where
  table : List (String × List (String × ℚ))
  learning_rate : ℚ
  discount_factor : ℚ
  epsilon : ℚ
deriving DecidableEq, Repr

/-- The `QTable` dataclass defaults. -/
def QTable.mkDefault : QTable :=
  { table := [], learning_rate := 1/10, discount_factor := 9/10, epsilon := 1/10 }

/-- `QTable.get_q_value`: inserts an empty inner dict for an unseen state (a
mutation of the table), then reads the action's value with default 0.0. -/
def QTable.get_q_value (t : QTable) (state action : String) : ℚ × QTable :=
  let t :=
    if (alistLookup state t.table).isSome then t
    else { t with table := t.table ++ [(state, [])] }
  ((alistLookup action ((alistLookup state t.table).getD [])).getD 0, t)

/-- `QTable.set_q_value`: inserts an empty inner dict for an unseen state,
then writes the action's value. -/
def QTable.set_q_value (t : QTable) (state action : String) (value : ℚ) : QTable :=
  let t :=
    if (alistLookup state t.table).isSome then t
    else { t with table := t.table ++ [(state, [])] }
  { t with
    table := alistInsert state (alistInsert action value ((alistLookup state t.table).getD []))
      t.table }

/-- Python `x or default` for an optional float argument: `None` and `0.0` are
both falsy and select the default. -/
def pyOrQ (x : Option ℚ) (d : ℚ) : ℚ :=
  match x with
  | none => d
  | some v => if v = 0 then d else v

/-- `max` over the values of a non-empty inner dict
(`max(self.table[next_state].values())`). -/
def qValuesMax (l : List (String × ℚ)) : ℚ :=
  (l.map Prod.snd).foldl max ((l.map Prod.snd).headD 0)

/-- `QTable.update_q_value`: the tabular Q-learning update
`Q ← Q + lr * (reward + gamma * max_next_q − Q)`, where `max_next_q` is the
maximum stored value for `next_state` (0.0 when `next_state` is absent or has
an empty inner dict). The optional `learning_rate`/`discount_factor`
arguments go through Python's falsy-`or` (`pyOrQ`). -/
def QTable.update_q_value (t : QTable) (state action : String) (reward : ℚ)
    (next_state : String) (lrArg dfArg : Option ℚ) : QTable :=
  let lr := pyOrQ lrArg t.learning_rate
  let gamma := pyOrQ dfArg t.discount_factor
  let pair := t.get_q_value state action
  let current_q := pair.1
  let t := pair.2
  let max_next_q :=
    match alistLookup next_state t.table with
    | some inner => if inner.isEmpty then 0 else qValuesMax inner
    | none => 0
  let new_q := current_q + lr * (reward + gamma * max_next_q - current_q)
  t.set_q_value state action new_q

/-- Reading a Q-value without the mutation (`table[state][action]` with
default 0.0), for stating properties of the table contents. -/
def QTable.qAt (t : QTable) (state action : String) : ℚ :=
  (alistLookup action ((alistLookup state t.table).getD [])).getD 0

/-- Iterating `update_q_value` n times with the same state, action, reward and
next state, as `QLearningAgent.update_q_value` does (no explicit
learning-rate or discount arguments). -/
def iterUpdate (state action : String) (reward : ℚ) (next_state : String) :
    Nat → QTable → QTable
  | 0, t => t
  | n + 1, t => iterUpdate state action reward next_state n
      (t.update_q_value state action reward next_state none none)

/-- The `level_scores` dict in `storage.AttackPathStorage._calculate_path_score`
(`dict.get(level, 0)`). -/
def level_scores (level : String) : ℚ :=
  if level = "none" then 0
  else if level = "public" then 10
  else if level = "internal" then 30
  else if level = "admin" then 100
  else 0

/-- `AttackPathStorage._calculate_path_score`: level weight, multiplied by
`1 + success_ratio` when any step was taken, plus 5 per vulnerability, minus
0.5 per failed step when any step failed. -/
def calculate_path_score (final_access_level : String)
    (successful_attacks failed_attacks vulnerability_count : Nat) : ℚ :=
  let base_score := level_scores final_access_level
  let total_attacks := successful_attacks + failed_attacks
  let base_score :=
    if 0 < total_attacks then
      base_score * (1 + (successful_attacks : ℚ) / (total_attacks : ℚ))
    else base_score
  let base_score := base_score + (vulnerability_count : ℚ) * 5
  let base_score :=
    if 0 < failed_attacks then base_score - (failed_attacks : ℚ) * (1/2)
    else base_score
  base_score

/-- One step record of an attack path as far as `save_attack_path` reads it:
the action string and the success flag. -/
structure PathStep where
  action : String
  success : Bool
deriving DecidableEq, Repr

/-- `AttackPathStorage.save_attack_path`, reduced to the score it stores:
counts successful and failed steps, and derives the score with
`_calculate_path_score` when none was passed. -/
def save_attack_path_score (attack_path : List PathStep) (final_access_level : String)
    (vulnerabilities : List String) (score : Option ℚ) : ℚ :=
  let successful_attacks := (attack_path.filter (fun s => s.success)).length
  let failed_attacks := attack_path.length - successful_attacks
  match score with
  | some s => s
  | none =>
      calculate_path_score final_access_level successful_attacks failed_attacks
        vulnerabilities.length

/-- `knowledge.StrategicHint` (the `Action` enum value kept as its string). -/
structure StrategicHint where
  action : String
  service_name : String
  exploit_id : Option String
  description : String
  confidence : ℚ
  cve_id : Option String
  exploit_path : Option String
deriving DecidableEq, Repr

/-- The mutable state of `knowledge.ExploitLibrarian` that
`get_strategic_hints` touches: the `hint_cache` dict. -/
structure Librarian where
  hint_cache : List (String × List StrategicHint)
deriving DecidableEq, Repr

/-- The cache key built by `get_strategic_hints`:
`f"{service_name}:{service_version or 'unknown'}"`. -/
def cacheKey (service_name : String) (service_version : Option String) : String :=
  service_name ++ ":" ++ service_version.getD "unknown"

/-- `ExploitLibrarian.get_strategic_hints`. The backend lookup — either
`_query_searchsploit` or `_query_mock_db`, both deterministic in
`(service_name, service_version)` — is abstracted as the function argument
`query`. Returns the hints, the updated librarian, and whether the backend
query was actually invoked (true exactly on a cache miss). -/
def get_strategic_hints (query : String → Option String → List StrategicHint)
    (lib : Librarian) (service_name : String) (service_version : Option String) :
    List StrategicHint × Librarian × Bool :=
  let key := cacheKey service_name service_version
  match alistLookup key lib.hint_cache with
  | some hints => (hints, lib, false)
  | none =>
      let hints := query service_name service_version
      (hints, { hint_cache := alistInsert key hints lib.hint_cache }, true)

/-- `ExploitLibrarian.clear_cache`. -/
def clear_cache (lib : Librarian) : Librarian := { lib with hint_cache := [] }

/-! Helper lemmas about the embedded operations. -/

theorem alistLookup_insert {α : Type} (k q : String) (v : α) (l : List (String × α)) :
    alistLookup q (alistInsert k v l) = if k = q then some v else alistLookup q l := by
  induction l with
  | nil => rfl
  | cons p rest ih =>
      obtain ⟨k0, v0⟩ := p
      simp only [alistInsert]
      by_cases h0 : k0 = k
      · subst h0
        simp only [if_pos rfl, alistLookup]
        by_cases hq : k0 = q <;> simp [hq]
      · rw [if_neg h0]
        simp only [alistLookup]
        by_cases hq : k0 = q
        · subst hq
          rw [if_pos rfl, if_pos rfl, if_neg (fun h => h0 h.symm)]
        · rw [if_neg hq, if_neg hq, ih]

theorem alistLookup_append_self {α : Type} (l : List (String × α)) (k : String) (v : α)
    (h : alistLookup k l = none) :
    alistLookup k (l ++ [(k, v)]) = some v := by
  induction l with
  | nil => simp [alistLookup]
  | cons p rest ih =>
      obtain ⟨k0, v0⟩ := p
      simp only [alistLookup, List.cons_append] at h ⊢
      by_cases hq : k0 = k
      · rw [if_pos hq] at h
        cases h
      · rw [if_neg hq] at h ⊢
        exact ih h

theorem alistLookup_append_ne {α : Type} (l : List (String × α)) (k q : String) (v : α)
    (h : ¬k = q) :
    alistLookup q (l ++ [(k, v)]) = alistLookup q l := by
  induction l with
  | nil => simp [alistLookup, if_neg h]
  | cons p rest ih =>
      obtain ⟨k0, v0⟩ := p
      simp only [alistLookup, List.cons_append]
      by_cases hq : k0 = q
      · rw [if_pos hq, if_pos hq]
      · rw [if_neg hq, if_neg hq]
        exact ih

theorem get_q_value_fst (t : QTable) (s a : String) :
    (t.get_q_value s a).1 = t.qAt s a := by
  simp only [QTable.get_q_value, QTable.qAt]
  by_cases h : (alistLookup s t.table).isSome
  · rw [if_pos h]
  · rw [if_neg h]
    have hnone : alistLookup s t.table = none := by
      cases hh : alistLookup s t.table
      · rfl
      · rw [hh] at h
        simp at h
    simp only [alistLookup_append_self t.table s [] hnone, hnone]
    rfl

theorem get_q_value_snd_lookup_ne (t : QTable) (s a q : String) (h : ¬s = q) :
    alistLookup q (t.get_q_value s a).2.table = alistLookup q t.table := by
  simp only [QTable.get_q_value]
  by_cases hh : (alistLookup s t.table).isSome
  · rw [if_pos hh]
  · rw [if_neg hh]
    exact alistLookup_append_ne t.table s q [] h

theorem get_q_value_snd_qAt (t : QTable) (s a : String) :
    (t.get_q_value s a).2.qAt s a = t.qAt s a := by
  simp only [QTable.get_q_value, QTable.qAt]
  by_cases h : (alistLookup s t.table).isSome
  · rw [if_pos h]
  · rw [if_neg h]
    have hnone : alistLookup s t.table = none := by
      cases hh : alistLookup s t.table
      · rfl
      · rw [hh] at h
        simp at h
    simp only [alistLookup_append_self t.table s [] hnone, hnone]
    rfl

theorem get_q_value_snd_lr (t : QTable) (s a : String) :
    (t.get_q_value s a).2.learning_rate = t.learning_rate := by
  simp only [QTable.get_q_value]
  by_cases h : (alistLookup s t.table).isSome
  · rw [if_pos h]
  · rw [if_neg h]

theorem get_q_value_snd_df (t : QTable) (s a : String) :
    (t.get_q_value s a).2.discount_factor = t.discount_factor := by
  simp only [QTable.get_q_value]
  by_cases h : (alistLookup s t.table).isSome
  · rw [if_pos h]
  · rw [if_neg h]

theorem set_q_value_qAt_self (t : QTable) (s a : String) (v : ℚ) :
    (t.set_q_value s a v).qAt s a = v := by
  simp only [QTable.set_q_value, QTable.qAt]
  by_cases h : (alistLookup s t.table).isSome
  · rw [if_pos h]
    simp [alistLookup_insert]
  · rw [if_neg h]
    simp [alistLookup_insert]

theorem set_q_value_lookup_ne (t : QTable) (s a : String) (v : ℚ) (q : String)
    (h : ¬s = q) :
    alistLookup q (t.set_q_value s a v).table = alistLookup q t.table := by
  simp only [QTable.set_q_value]
  by_cases hh : (alistLookup s t.table).isSome
  · rw [if_pos hh]
    simp only [alistLookup_insert, if_neg h]
  · rw [if_neg hh]
    simp only [alistLookup_insert, if_neg h]
    exact alistLookup_append_ne t.table s q [] h

theorem set_q_value_lr (t : QTable) (s a : String) (v : ℚ) :
    (t.set_q_value s a v).learning_rate = t.learning_rate := by
  simp only [QTable.set_q_value]
  by_cases h : (alistLookup s t.table).isSome
  · rw [if_pos h]
  · rw [if_neg h]

/-- One `update_q_value` call with the agent's default optional arguments,
a state distinct from the next state and no stored values for the next state,
performs `Q ← Q + α·(r − Q)`, keeps the next state value-free, and keeps the
learning rate. -/
theorem update_q_value_closed_form (t : QTable) (s a : String) (r : ℚ) (next : String)
    (hsn : ¬s = next) (hn : (alistLookup next t.table).getD [] = []) :
    (t.update_q_value s a r next none none).qAt s a
        = t.qAt s a + t.learning_rate * (r - t.qAt s a)
    ∧ (alistLookup next (t.update_q_value s a r next none none).table).getD [] = []
    ∧ (t.update_q_value s a r next none none).learning_rate = t.learning_rate := by
  have hmax : (match alistLookup next (t.get_q_value s a).2.table with
      | some inner => if inner.isEmpty then (0 : ℚ) else qValuesMax inner
      | none => (0 : ℚ)) = 0 := by
    rw [get_q_value_snd_lookup_ne t s a next hsn]
    cases hh : alistLookup next t.table with
    | none => rfl
    | some inner =>
        rw [hh] at hn
        simp only [Option.getD] at hn
        subst hn
        rfl
  refine ⟨?q, ?n, ?l⟩
  case q =>
    simp only [QTable.update_q_value, pyOrQ, hmax, get_q_value_fst]
    rw [set_q_value_qAt_self]
    ring
  case n =>
    simp only [QTable.update_q_value, pyOrQ]
    rw [set_q_value_lookup_ne _ _ _ _ _ hsn, get_q_value_snd_lookup_ne t s a next hsn]
    exact hn
  case l =>
    simp only [QTable.update_q_value, pyOrQ]
    rw [set_q_value_lr, get_q_value_snd_lr]

/-- Closed form of the iterated update: after n updates the stored value is
`r + (1 − α)^n · (Q₀ − r)`. -/
theorem iterUpdate_closed_form (s a : String) (r : ℚ) (next : String) (hsn : ¬s = next) :
    ∀ (n : Nat) (t : QTable), (alistLookup next t.table).getD [] = [] →
      (iterUpdate s a r next n t).qAt s a
        = r + (1 - t.learning_rate) ^ n * (t.qAt s a - r) := by
  intro n
  induction n with
  | zero =>
      intro t hn
      simp only [iterUpdate, pow_zero]
      ring
  | succ n ih =>
      intro t hn
      obtain ⟨h1, h2, h3⟩ := update_q_value_closed_form t s a r next hsn hn
      rw [iterUpdate, ih _ h2, h1, h3]
      ring

theorem block_ip_level (s : EnvironmentState) (ip : String) :
    (s.block_ip ip).current_access_level = s.current_access_level := by
  unfold EnvironmentState.block_ip
  split <;> rfl

theorem add_visited_level (s : EnvironmentState) (c : String) :
    (s.add_visited_component c).current_access_level = s.current_access_level := by
  unfold EnvironmentState.add_visited_component
  split <;> rfl

theorem escalate_access_rank_le (s : EnvironmentState) (l : AccessLevel) :
    s.current_access_level.rank ≤ ((s.escalate_access l).2).current_access_level.rank := by
  unfold EnvironmentState.escalate_access
  split
  · next h =>
      simp only [AccessLevel.pyLt, decide_eq_true_eq] at h
      exact le_of_lt h
  · exact le_refl _

theorem execute_attack_level_eq (a : AttackAction) (env : EnvironmentState) (d : Draws) :
    (execute_attack a env d).1.new_access_level =
      (execute_attack a env d).2.current_access_level := by
  unfold execute_attack
  split_ifs <;> try rfl
  dsimp only
  split <;> rfl

theorem execute_attack_rank_mono (a : AttackAction) (env : EnvironmentState) (d : Draws) :
    env.current_access_level.rank ≤
      (execute_attack a env d).2.current_access_level.rank := by
  unfold execute_attack
  split_ifs
  · exact le_refl _
  · exact le_refl _
  · rw [block_ip_level]
  · dsimp only
    split
    · cases h : VULNERABILITIES a <;>
        · dsimp only [h]
          rw [add_visited_level]
          exact escalate_access_rank_le env _
    · exact le_refl _

theorem execute_attack_blocked (a : AttackAction) (env : EnvironmentState) (d : Draws)
    (h : env.is_blocked "attacker_ip" = true) :
    execute_attack a env d =
      ({ success := false
         new_access_level := env.current_access_level
         message := "IP address is blocked"
         discovered_component := none
         vulnerability_found := none
         blocked := true }, env) := by
  unfold execute_attack
  rw [if_pos h]

/-! Claim theorems. -/

/-- C1. The claim states that `get_available_actions` is monotone in the
privilege order NONE < PUBLIC < INTERNAL < ADMIN and that every action
available at NONE stays available at every level. The code violates this:
the guards `current_level >= AccessLevel.PUBLIC` / `>= AccessLevel.INTERNAL`
resolve to string comparison of the enum values, so `xss_attempt` is
available at PUBLIC but not at the higher level INTERNAL, and
`lateral_movement_attempt` is available at NONE but not at ADMIN. -/
theorem get_available_actions_not_monotone :
    AccessLevel.pyLe .PUBLIC .INTERNAL = true
    ∧ AttackAction.XSS_ATTEMPT ∈ get_available_actions .PUBLIC
    ∧ AttackAction.XSS_ATTEMPT ∉ get_available_actions .INTERNAL
    ∧ AccessLevel.pyLe .NONE .ADMIN = true
    ∧ AttackAction.LATERAL_MOVEMENT_ATTEMPT ∈ get_available_actions .NONE
    ∧ AttackAction.LATERAL_MOVEMENT_ATTEMPT ∉ get_available_actions .ADMIN := by
  decide

/-- C10. In every branch of `execute_attack` — already blocked, inapplicable,
newly detection-blocked, probabilistic failure and success — the returned
result's `new_access_level` equals the environment's `current_access_level`
at the moment of return (the post-escalation level on success). -/
theorem execute_attack_result_state_agree (a : AttackAction) (env : EnvironmentState)
    (d : Draws) :
    (execute_attack a env d).1.new_access_level =
      (execute_attack a env d).2.current_access_level :=
  execute_attack_level_eq a env d

/-- C3. Within one episode, whatever the actions chosen and random draws
taken, the access level observed along any sequence of `execute_attack` calls
is non-decreasing in the order NONE < PUBLIC < INTERNAL < ADMIN. -/
theorem access_level_monotone (steps : List (AttackAction × Draws))
    (env : EnvironmentState) :
    List.Chain' (fun a b => a.rank ≤ b.rank) (levelTrace steps env) := by
  induction steps generalizing env with
  | nil => simp [levelTrace]
  | cons p rest ih =>
      obtain ⟨a, d⟩ := p
      have hhead : ∀ (st : List (AttackAction × Draws)) (e : EnvironmentState),
          (levelTrace st e).head? = some e.current_access_level := by
        intro st e
        cases st <;> rfl
      rw [levelTrace, List.chain'_cons']
      constructor
      · intro y hy
        rw [hhead] at hy
        cases hy
        exact execute_attack_rank_mono a env d
      · exact ih (execute_attack a env d).2

/-- C4. Once the attacker identifier is in the blocked set, every subsequent
`execute_attack` call — for every action and every random draw — returns a
result with `success = false` and `blocked = true` and leaves the environment
state unchanged. -/
theorem blocking_is_sticky (steps : List (AttackAction × Draws))
    (env : EnvironmentState) (h : env.is_blocked "attacker_ip" = true) :
    (runAttacks steps env).2 = env
    ∧ ∀ r ∈ (runAttacks steps env).1, r.success = false ∧ r.blocked = true := by
  induction steps with
  | nil => exact ⟨rfl, by intro r hr; cases hr⟩
  | cons p rest ih =>
      obtain ⟨a, d⟩ := p
      rw [runAttacks]
      rw [execute_attack_blocked a env d h]
      obtain ⟨h1, h2⟩ := ih
      refine ⟨h1, ?m⟩
      intro r hr
      simp only [h1] at hr ⊢
      rcases List.mem_cons.mp hr with h3 | h3
      · subst h3
        exact ⟨rfl, rfl⟩
      · exact h2 r h3

/-- C4 witness: with the attacker already blocked in a concrete state, one
concrete subsequent call keeps the state and returns a blocked failure. -/
theorem blocking_is_sticky_witness :
    ({ initialState with blocked_ips := ["attacker_ip"] }.is_blocked "attacker_ip" = true)
    ∧ ((runAttacks [(.PUBLIC_ACCESS_ATTEMPT, ⟨1/2, 1/10, 1⟩)]
          { initialState with blocked_ips := ["attacker_ip"] }).2 =
        { initialState with blocked_ips := ["attacker_ip"] }
      ∧ ∀ r ∈ (runAttacks [(.PUBLIC_ACCESS_ATTEMPT, ⟨1/2, 1/10, 1⟩)]
          { initialState with blocked_ips := ["attacker_ip"] }).1,
          r.success = false ∧ r.blocked = true) :=
  ⟨by decide,
   blocking_is_sticky [(.PUBLIC_ACCESS_ATTEMPT, ⟨1/2, 1/10, 1⟩)]
     { initialState with blocked_ips := ["attacker_ip"] } (by decide)⟩

/-- C6 counterexample. The claim asserts that `lateral_movement_attempt` at
access level NONE (attacker not blocked) always yields an inapplicability
failure with the level unchanged. In the code `lateral_movement_attempt` is a
recognized escalation action, so `_is_action_applicable` accepts it at NONE:
with IDS draw 1/2 and success draw 1/20 (below the 0.11 success probability)
the attack succeeds and escalates the level from NONE to INTERNAL. -/
theorem lateral_movement_at_none_not_inapplicable :
    initialState.current_access_level = .NONE
    ∧ initialState.is_blocked "attacker_ip" = false
    ∧ (execute_attack .LATERAL_MOVEMENT_ATTEMPT initialState ⟨1/2, 1/20, 3⟩).1.success = true
    ∧ (execute_attack .LATERAL_MOVEMENT_ATTEMPT initialState ⟨1/2, 1/20, 3⟩).2.current_access_level
        = .INTERNAL := by
  norm_num [execute_attack, EnvironmentState.is_blocked, is_action_applicable,
    SUCCESS_PROBABILITIES, ACCESS_ESCALATIONS, block_probability, get_success_probability,
    calculate_new_access_level, EnvironmentState.escalate_access, AccessLevel.pyLt,
    AccessLevel.rank, EnvironmentState.add_visited_component, VULNERABILITIES, initialState]

/-- C6 amended. `lateral_movement_attempt` IS applicable at NONE (it is an
escalation action), so no inapplicability result is possible there; when the
IDS draw does not trigger and the success draw fails, the result is a plain
failure ("Failed to execute lateral_movement_attempt"), the state is
unchanged, and `calculate_reward` yields −2.0 when no hint is present. -/
theorem lateral_movement_at_none_amended (env : EnvironmentState) (d : Draws)
    (hlvl : env.current_access_level = .NONE)
    (hnb : env.is_blocked "attacker_ip" = false)
    (hhint : env.strategic_hint = none)
    (hav : env.hint_available = 0)
    (hb : block_probability ≤ d.block_draw)
    (hs : get_success_probability .LATERAL_MOVEMENT_ATTEMPT .NONE ≤ d.success_draw) :
    is_action_applicable .LATERAL_MOVEMENT_ATTEMPT .NONE = true
    ∧ (execute_attack .LATERAL_MOVEMENT_ATTEMPT env d).1.success = false
    ∧ (execute_attack .LATERAL_MOVEMENT_ATTEMPT env d).1.message =
        "Failed to execute lateral_movement_attempt"
    ∧ (execute_attack .LATERAL_MOVEMENT_ATTEMPT env d).2 = env
    ∧ (calculate_reward (execute_attack .LATERAL_MOVEMENT_ATTEMPT env d).1 env
        "lateral_movement_attempt").1 = -2 := by
  have happ : is_action_applicable .LATERAL_MOVEMENT_ATTEMPT env.current_access_level
      = true := by
    rw [hlvl]; decide
  have hexec : execute_attack .LATERAL_MOVEMENT_ATTEMPT env d =
      ({ success := false
         new_access_level := env.current_access_level
         message := "Failed to execute lateral_movement_attempt"
         discovered_component := none
         vulnerability_found := none
         blocked := false }, env) := by
    unfold execute_attack
    rw [if_neg (by rw [hnb]; exact Bool.false_ne_true), if_neg (by rw [happ]; decide),
      if_neg (not_lt.mpr hb)]
    dsimp only
    rw [if_neg (not_lt.mpr (by rw [hlvl]; exact hs))]
    rfl
  rw [hexec]
  refine ⟨by rw [hlvl] at happ; exact happ, rfl, rfl, rfl, ?r⟩
  unfold calculate_reward EnvironmentState.check_hint_match
  rw [hhint, hav]
  norm_num

/-- C6 amended witness: concrete no-hint state at NONE with draws 1/2, 1/2. -/
theorem lateral_movement_at_none_amended_witness :
    (initialState.current_access_level = .NONE
      ∧ initialState.is_blocked "attacker_ip" = false
      ∧ initialState.strategic_hint = none
      ∧ initialState.hint_available = 0
      ∧ block_probability ≤ (1/2 : ℚ)
      ∧ get_success_probability .LATERAL_MOVEMENT_ATTEMPT .NONE ≤ (1/2 : ℚ))
    ∧ (is_action_applicable .LATERAL_MOVEMENT_ATTEMPT .NONE = true
      ∧ (execute_attack .LATERAL_MOVEMENT_ATTEMPT initialState ⟨1/2, 1/2, 3⟩).1.success = false
      ∧ (execute_attack .LATERAL_MOVEMENT_ATTEMPT initialState ⟨1/2, 1/2, 3⟩).1.message =
          "Failed to execute lateral_movement_attempt"
      ∧ (execute_attack .LATERAL_MOVEMENT_ATTEMPT initialState ⟨1/2, 1/2, 3⟩).2 = initialState
      ∧ (calculate_reward (execute_attack .LATERAL_MOVEMENT_ATTEMPT initialState ⟨1/2, 1/2, 3⟩).1
          initialState "lateral_movement_attempt").1 = -2) :=
  ⟨⟨rfl, rfl, rfl, rfl, by norm_num [block_probability], by norm_num [get_success_probability,
      SUCCESS_PROBABILITIES]⟩,
   lateral_movement_at_none_amended initialState ⟨1/2, 1/2, 3⟩ rfl rfl rfl rfl
     (by norm_num [block_probability])
     (by norm_num [get_success_probability, SUCCESS_PROBABILITIES])⟩

/-- C2. The claim states that in the composed simulation step
(`execute_attack` mutates the environment, then `calculate_reward` reads that
same environment) every successful escalating step earns an extra
10.0 × (new rank − old rank) on top of the +5.0 base. The code defeats this:
`result.new_access_level` always equals the already-escalated
`current_access_level` that `calculate_reward` compares against, so the
escalation term can never fire. Concretely, a successful
`public_access_attempt` from NONE escalates to PUBLIC yet is rewarded
7.0 (5.0 success + 2.0 component), not the claimed 17.0. -/
theorem escalation_reward_never_fires :
    (∀ (a : AttackAction) (env : EnvironmentState) (d : Draws),
      access_levels (execute_attack a env d).1.new_access_level =
        access_levels (execute_attack a env d).2.current_access_level)
    ∧ (simulationStep .PUBLIC_ACCESS_ATTEMPT initialState ⟨1/2, 1/10, 2⟩).1.success = true
    ∧ initialState.current_access_level = .NONE
    ∧ (simulationStep .PUBLIC_ACCESS_ATTEMPT initialState ⟨1/2, 1/10, 2⟩).2.2.current_access_level
        = .PUBLIC
    ∧ (simulationStep .PUBLIC_ACCESS_ATTEMPT initialState ⟨1/2, 1/10, 2⟩).2.1 = 7 := by
  refine ⟨fun a env d => by rw [execute_attack_level_eq], ?h1, rfl, ?h2, ?h3⟩ <;>
    norm_num [simulationStep, execute_attack, EnvironmentState.is_blocked,
      is_action_applicable, SUCCESS_PROBABILITIES, ACCESS_ESCALATIONS, block_probability,
      get_success_probability, calculate_new_access_level, EnvironmentState.escalate_access,
      AccessLevel.pyLt, AccessLevel.rank, EnvironmentState.add_visited_component,
      VULNERABILITIES, initialState, calculate_reward, EnvironmentState.check_hint_match,
      access_levels, AttackAction.value]

/-- C5. When a hint is present (`hint_available = 1`), the action matches the
strategic hint and the result is a success, `calculate_reward` yields exactly
100.0 (massive hint reward) + 2.0 (trust bonus) more than the identical call
with the hint removed — on top of all other applicable terms — and sets
`hint_followed = true` and `hint_success = true` on the state. -/
theorem hint_massive_reward (result : AttackResult) (state : EnvironmentState)
    (action : String)
    (h1 : state.hint_available = 1)
    (h2 : state.check_hint_match action = true)
    (h3 : result.success = true) :
    (calculate_reward result state action).1 =
      (calculate_reward result
        { state with strategic_hint := none, hint_available := 0 } action).1 + 102
    ∧ (calculate_reward result state action).2.hint_followed = true
    ∧ (calculate_reward result state action).2.hint_success = true := by
  unfold calculate_reward
  have h2' : EnvironmentState.check_hint_match
      { state with strategic_hint := none, hint_available := 0 } action = false := rfl
  rw [h1, h2, h2', h3]
  simp only [EnvironmentState.mark_hint_followed, Bool.not_true, Bool.false_and,
    Bool.true_and, if_true, if_false, ite_true, ite_false, Bool.false_eq_true]
  norm_num
  split_ifs <;> simp <;> ring

/-- A concrete environment with an active `xss_attempt` hint, for the C5
witness. -/
def hintedState : EnvironmentState :=
  { initialState with strategic_hint := some "xss_attempt", hint_available := 1 }

/-- A concrete successful `xss_attempt` result, for the C5 witness. -/
def hintedResult : AttackResult :=
  { success := true
    new_access_level := .PUBLIC
    message := "m"
    discovered_component := some "service_1"
    vulnerability_found := some "Cross-Site Scripting (XSS)"
    blocked := false }

/-- C5 witness: a concrete hinted successful step. -/
theorem hint_massive_reward_witness :
    (hintedState.hint_available = 1
      ∧ hintedState.check_hint_match "xss_attempt" = true
      ∧ hintedResult.success = true)
    ∧ ((calculate_reward hintedResult hintedState "xss_attempt").1 =
        (calculate_reward hintedResult
          { hintedState with strategic_hint := none, hint_available := 0 } "xss_attempt").1
          + 102
      ∧ (calculate_reward hintedResult hintedState "xss_attempt").2.hint_followed = true
      ∧ (calculate_reward hintedResult hintedState "xss_attempt").2.hint_success = true) :=
  ⟨⟨rfl, rfl, rfl⟩, hint_massive_reward hintedResult hintedState "xss_attempt" rfl rfl rfl⟩

/-- C7. The path score derived by `save_attack_path` when no score is given
equals level-weight × (1 + success ratio) + 5 × vulnerabilities − 0.5 ×
failures (the ratio term vanishing with zero steps and the penalty with zero
failures), and for final level ADMIN with 8 successes, 2 failures and 3
vulnerabilities the stored score is exactly 194. -/
theorem path_score_derivation :
    (∀ (l : String) (s f v : Nat),
      calculate_path_score l s f v =
        level_scores l * (1 + (if 0 < s + f then (s : ℚ) / ((s : ℚ) + (f : ℚ)) else 0))
          + 5 * (v : ℚ) - (1/2) * (f : ℚ))
    ∧ save_attack_path_score
        (List.replicate 8 { action := "a", success := true } ++
          List.replicate 2 { action := "b", success := false })
        "admin" ["v1", "v2", "v3"] none = 194 := by
  constructor
  · intro l s f v
    simp only [calculate_path_score]
    rcases Nat.eq_zero_or_pos (s + f) with h2 | h2
    · have hs : s = 0 := by omega
      have hf : f = 0 := by omega
      subst hs
      subst hf
      norm_num [mul_comm]
    · rw [if_pos h2, if_pos h2]
      rcases Nat.eq_zero_or_pos f with h1 | h1
      · subst h1
        rw [if_neg (by omega)]
        push_cast
        ring
      · rw [if_pos h1]
        push_cast
        ring
  · simp only [save_attack_path_score, calculate_path_score, level_scores, List.replicate,
      List.filter, String.reduceEq]
    norm_num

/-- C8. Two consecutive `get_strategic_hints` calls with identical arguments
return identical hint lists; the second call is a pure cache hit (librarian
unchanged, backend query not invoked); the cache holds the returned hints
under the call's key; and the call preserves every other cache entry — an
entry disappears only through `clear_cache`. The backend lookup is abstracted
as the deterministic function argument `query`. -/
theorem cache_idempotent (query : String → Option String → List StrategicHint)
    (lib : Librarian) (service_name : String) (service_version : Option String) :
    (get_strategic_hints query
        (get_strategic_hints query lib service_name service_version).2.1
        service_name service_version).1 =
      (get_strategic_hints query lib service_name service_version).1
    ∧ (get_strategic_hints query
        (get_strategic_hints query lib service_name service_version).2.1
        service_name service_version).2.1 =
      (get_strategic_hints query lib service_name service_version).2.1
    ∧ (get_strategic_hints query
        (get_strategic_hints query lib service_name service_version).2.1
        service_name service_version).2.2 = false
    ∧ alistLookup (cacheKey service_name service_version)
        (get_strategic_hints query lib service_name service_version).2.1.hint_cache =
      some (get_strategic_hints query lib service_name service_version).1
    ∧ ∀ k,
        alistLookup k (get_strategic_hints query lib service_name service_version).2.1.hint_cache
          = if k = cacheKey service_name service_version
            then some (get_strategic_hints query lib service_name service_version).1
            else alistLookup k lib.hint_cache := by
  cases h : alistLookup (cacheKey service_name service_version) lib.hint_cache with
  | some hs =>
      have h1 : get_strategic_hints query lib service_name service_version =
          (hs, lib, false) := by
        simp only [get_strategic_hints, h]
      rw [h1]
      refine ⟨by rw [h1], by rw [h1], by rw [h1], h, ?k⟩
      intro k
      by_cases hk : k = cacheKey service_name service_version
      · rw [if_pos hk, hk, h]
      · rw [if_neg hk]
  | none =>
      have h2 : alistLookup (cacheKey service_name service_version)
          (alistInsert (cacheKey service_name service_version)
            (query service_name service_version) lib.hint_cache) =
          some (query service_name service_version) := by
        rw [alistLookup_insert, if_pos rfl]
      have h1 : get_strategic_hints query lib service_name service_version =
          (query service_name service_version,
            { hint_cache := alistInsert (cacheKey service_name service_version)
                (query service_name service_version) lib.hint_cache }, true) := by
        simp only [get_strategic_hints, h]
      have h3 : get_strategic_hints query
          { hint_cache := alistInsert (cacheKey service_name service_version)
              (query service_name service_version) lib.hint_cache }
          service_name service_version =
          (query service_name service_version,
            { hint_cache := alistInsert (cacheKey service_name service_version)
                (query service_name service_version) lib.hint_cache }, false) := by
        simp only [get_strategic_hints, h2]
      rw [h1]
      refine ⟨by rw [h3], by rw [h3], by rw [h3], ?d2, ?k2⟩
      case d2 => exact h2
      case k2 =>
        intro k
        rw [alistLookup_insert]
        by_cases hk : k = cacheKey service_name service_version
        · rw [if_pos hk, if_pos hk.symm]
        · rw [if_neg hk, if_neg (fun hh => hk hh.symm)]

/-- C9. With a fixed reward r, a learning rate α in (0, 1], and a next state
distinct from the updated state and holding no stored Q-values, the iterated
`update_q_value` sequence moves Q(s, a) monotonically toward r (the distance
to r never increases) and converges to r. -/
theorem q_update_convergence (t : QTable) (s a next : String) (r : ℚ)
    (hl : 0 < t.learning_rate) (hu : t.learning_rate ≤ 1)
    (hsn : ¬s = next) (hn : (alistLookup next t.table).getD [] = []) :
    (∀ n : Nat,
      |(iterUpdate s a r next (n + 1) t).qAt s a - r|
        ≤ |(iterUpdate s a r next n t).qAt s a - r|)
    ∧ ∀ ε : ℚ, 0 < ε → ∃ N : Nat, ∀ n : Nat, N ≤ n →
        |(iterUpdate s a r next n t).qAt s a - r| < ε := by
  have hform : ∀ n : Nat, (iterUpdate s a r next n t).qAt s a
      = r + (1 - t.learning_rate) ^ n * (t.qAt s a - r) := fun n =>
    iterUpdate_closed_form s a r next hsn n t hn
  have hb0 : (0 : ℚ) ≤ 1 - t.learning_rate := by linarith
  have hb1 : 1 - t.learning_rate < 1 := by linarith
  have habs : ∀ n : Nat, |(iterUpdate s a r next n t).qAt s a - r|
      = (1 - t.learning_rate) ^ n * |t.qAt s a - r| := by
    intro n
    rw [hform n]
    rw [show r + (1 - t.learning_rate) ^ n * (t.qAt s a - r) - r
        = (1 - t.learning_rate) ^ n * (t.qAt s a - r) by ring]
    rw [abs_mul, abs_of_nonneg (pow_nonneg hb0 n)]
  constructor
  · intro n
    rw [habs n, habs (n + 1)]
    exact mul_le_mul_of_nonneg_right
      (pow_le_pow_of_le_one hb0 (le_of_lt hb1) (Nat.le_succ n)) (abs_nonneg _)
  · intro ε hε
    have hd1 : (0 : ℚ) < |t.qAt s a - r| + 1 := by positivity
    obtain ⟨N, hN⟩ := exists_pow_lt_of_lt_one (div_pos hε hd1) hb1
    refine ⟨N, fun n hnN => ?_⟩
    rw [habs n]
    calc (1 - t.learning_rate) ^ n * |t.qAt s a - r|
        ≤ (1 - t.learning_rate) ^ N * |t.qAt s a - r| :=
          mul_le_mul_of_nonneg_right (pow_le_pow_of_le_one hb0 (le_of_lt hb1) hnN)
            (abs_nonneg _)
      _ ≤ (ε / (|t.qAt s a - r| + 1)) * |t.qAt s a - r| :=
          mul_le_mul_of_nonneg_right (le_of_lt hN) (abs_nonneg _)
      _ < ε := by
          rw [div_mul_eq_mul_div, div_lt_iff₀ hd1]
          have : |t.qAt s a - r| < |t.qAt s a - r| + 1 := by linarith
          calc ε * |t.qAt s a - r| < ε * (|t.qAt s a - r| + 1) :=
            (mul_lt_mul_left hε).mpr this
            _ = ε * (|t.qAt s a - r| + 1) := rfl

/-- C9 witness: the default Q-table (α = 0.1), state "none", action
"public_access_attempt", next state "public" with an empty table. -/
theorem q_update_convergence_witness :
    (0 < QTable.mkDefault.learning_rate
      ∧ QTable.mkDefault.learning_rate ≤ 1
      ∧ ¬"none" = "public"
      ∧ (alistLookup "public" QTable.mkDefault.table).getD [] = [])
    ∧ ((∀ n : Nat,
        |(iterUpdate "none" "public_access_attempt" 5 "public" (n + 1)
            QTable.mkDefault).qAt "none" "public_access_attempt" - 5|
          ≤ |(iterUpdate "none" "public_access_attempt" 5 "public" n
              QTable.mkDefault).qAt "none" "public_access_attempt" - 5|)
      ∧ ∀ ε : ℚ, 0 < ε → ∃ N : Nat, ∀ n : Nat, N ≤ n →
          |(iterUpdate "none" "public_access_attempt" 5 "public" n
              QTable.mkDefault).qAt "none" "public_access_attempt" - 5| < ε) :=
  ⟨⟨by norm_num [QTable.mkDefault], by norm_num [QTable.mkDefault], by decide, rfl⟩,
   q_update_convergence QTable.mkDefault "none" "public_access_attempt" "public" 5
     (by norm_num [QTable.mkDefault]) (by norm_num [QTable.mkDefault]) (by decide) rfl⟩

end ArtAI
